import Mathlib

/-!
Shallow embedding of the résumé-analysis pipeline in
`RESUME_EXTRACTOR/main.py` (class `ResumeAnalyzer`), together with proofs
about the claims of the specification.

Conventions:
* Python strings are Lean `String`s; positions of text are `List Char`.
* Python's `re` module semantics (leftmost match, greedy quantifiers with
  backtracking) is embedded through a small combinator engine producing,
  at each start position, the candidate (consumed, rest) splits in
  backtracking priority order; `re.search` takes the first split at the
  leftmost successful position, `re.findall` repeatedly takes matches and
  resumes after them.
* `datetime.now().year` is modelled as an explicit `nowYear` argument.
* The spaCy pipeline (`self.nlp`) is an external collaborator; it is
  modelled as an `Option (String → List String)` producing the lemma
  tokens of the lowercased text (line 129 of the source), `none` when the
  model failed to load.
* All character classes are the ASCII fragment of Python's, which is
  exact for the texts considered here.
-/

/-- ASCII decimal digit, Python `\d` (ASCII fragment). -/
def isDigitC (c : Char) : Bool := '0' ≤ c && c ≤ '9'

/-- ASCII letter. -/
def isAlphaC (c : Char) : Bool := ('a' ≤ c && c ≤ 'z') || ('A' ≤ c && c ≤ 'Z')

/-- Python `\w` word character (ASCII fragment): letters, digits, underscore. -/
def isWordC (c : Char) : Bool := isAlphaC c || isDigitC c || c = '_'

/-- Python whitespace (`\s`, `str.strip`, `str.split`), ASCII fragment. -/
def isSpaceC (c : Char) : Bool :=
  c = ' ' || c = '\t' || c = '\n' || c = '\r' || c = '\x0b' || c = '\x0c'

/-- The separator class `[-.\s]` of the phone pattern. -/
def isSepC (c : Char) : Bool := c = '-' || c = '.' || isSpaceC c

/-- A matcher receives the character just before the current position
(`none` at the start of the text, needed for `\b`) and the remaining
characters, and returns the candidate (consumed, rest) splits in
backtracking priority order. -/
def Matcher : Type := Option Char → List Char → List (List Char × List Char)

/-- Last character of `xs`, falling back to `p` when `xs` is empty:
threads the "previous character" through sequential composition. -/
def lastOr (xs : List Char) (p : Option Char) : Option Char :=
  match xs.getLast? with
  | some c => some c
  | none => p

/-- Sequential composition of matchers. -/
def mseq (a b : Matcher) : Matcher := fun prev cs =>
  (a prev cs).flatMap (fun pr =>
    (b (lastOr pr.1 prev) pr.2).map (fun qr => (pr.1 ++ qr.1, qr.2)))

/-- Alternation: the left branch has priority (Python tries it first). -/
def malt (a b : Matcher) : Matcher := fun prev cs => a prev cs ++ b prev cs

/-- The empty match. -/
def meps : Matcher := fun _ cs => [([], cs)]

/-- A literal character sequence. -/
def mstr (s : List Char) : Matcher := fun _ cs =>
  if s.isPrefixOf cs then [(s, cs.drop s.length)] else []

/-- Number of leading characters of `cs` satisfying `p`. -/
def takeCount (p : Char → Bool) (cs : List Char) : Nat := (cs.takeWhile p).length

/-- Greedy bounded repetition `p{lo,hi}` of a single-character class:
candidate lengths from the longest available down to `lo`. -/
def mtake (p : Char → Bool) (lo hi : Nat) : Matcher := fun _ cs =>
  let k := min hi (takeCount p cs)
  (List.range (k + 1)).reverse.filterMap
    (fun n => if lo ≤ n then some (cs.take n, cs.drop n) else none)

/-- Greedy unbounded repetition `p{lo,}` of a single-character class
(`+` is `lo = 1`, `{2,}` is `lo = 2`). -/
def mmany (p : Char → Bool) (lo : Nat) : Matcher := fun _ cs =>
  let k := takeCount p cs
  (List.range (k + 1)).reverse.filterMap
    (fun n => if lo ≤ n then some (cs.take n, cs.drop n) else none)

/-- Is an optional character a word character (`none` behaves as non-word,
as at the edges of the text)? -/
def isWordOpt : Option Char → Bool
  | some c => isWordC c
  | none => false

/-- Python's `\b` word boundary: consumes nothing, succeeds when exactly
one side of the position is a word character. -/
def mbound : Matcher := fun prev cs =>
  if isWordOpt prev ≠ isWordOpt cs.head? then [([], cs)] else []

/-- `re.search`: try each start position from the left; at the first
position where the matcher succeeds, return its highest-priority match.
The fuel bounds the number of positions tried; `searchStr` supplies
`length + 1`, which always suffices. -/
def searchAux (m : Matcher) : Nat → Option Char → List Char → Option (List Char)
  | 0, _, _ => none
  | fuel + 1, prev, cs =>
    match (m prev cs).head? with
    | some pr => some pr.1
    | none =>
      match cs with
      | [] => none
      | c :: r => searchAux m fuel (some c) r

/-- `re.search` over a string, returning the matched substring. -/
def searchStr (m : Matcher) (s : String) : Option String :=
  (searchAux m (s.data.length + 1) none s.data).map (fun l => ⟨l⟩)

/-- `re.findall` worker: scan from the left; on a (non-empty) match emit it
and resume right after it, otherwise advance one character.  The fuel is
an upper bound on the number of steps (each step ends or shortens the
text); `findAll` supplies enough. -/
def findAllAux (m : Matcher) : Nat → Option Char → List Char → List (List Char)
  | 0, _, _ => []
  | fuel + 1, prev, cs =>
    match (m prev cs).head? with
    | some (x, r) =>
      if x.isEmpty then
        match cs with
        | [] => []
        | c :: r2 => findAllAux m fuel (some c) r2
      else x :: findAllAux m fuel (lastOr x prev) r
    | none =>
      match cs with
      | [] => []
      | c :: r => findAllAux m fuel (some c) r

/-- `re.findall`, returning the full matched substrings in order. -/
def findAll (m : Matcher) (s : List Char) : List (List Char) :=
  findAllAux m (s.length + 1) none s

/-! ### The three regex patterns of the source (lines 27-29) -/

/-- Local-part class `[A-Za-z0-9._%+-]` of the email pattern. -/
def emailLocalC (c : Char) : Bool :=
  isAlphaC c || isDigitC c || c = '.' || c = '_' || c = '%' || c = '+' || c = '-'

/-- Domain class `[A-Za-z0-9.-]` of the email pattern. -/
def emailDomainC (c : Char) : Bool := isAlphaC c || isDigitC c || c = '.' || c = '-'

/-- Top-level-domain class `[A-Z|a-z]` of the email pattern (the class
literally contains the pipe character). -/
def emailTldC (c : Char) : Bool := isAlphaC c || c = '|'

/-- `email_pattern = r'\b[A-Za-z0-9._%+-]+@[A-Za-z0-9.-]+\.[A-Z|a-z]{2,}\b'`. -/
def emailRegex : Matcher :=
  mseq mbound (mseq (mmany emailLocalC 1) (mseq (mstr ['@'])
    (mseq (mmany emailDomainC 1) (mseq (mstr ['.'])
      (mseq (mmany emailTldC 2) mbound)))))

/-- `phone_pattern = r'(\+?\d{1,3}[-.\s]?)?\(?\d{3}\)?[-.\s]?\d{3}[-.\s]?\d{4}'`. -/
def phoneRegex : Matcher :=
  mseq (malt (mseq (mtake (fun c => c = '+') 0 1)
                   (mseq (mtake isDigitC 1 3) (mtake isSepC 0 1))) meps)
    (mseq (mtake (fun c => c = '(') 0 1)
      (mseq (mtake isDigitC 3 3)
        (mseq (mtake (fun c => c = ')') 0 1)
          (mseq (mtake isSepC 0 1)
            (mseq (mtake isDigitC 3 3)
              (mseq (mtake isSepC 0 1) (mtake isDigitC 4 4)))))))

/-- `year_pattern = r'\b(19|20)\d{2}\b'`.  Note the capture group around
the alternation: any full match has length 4 and the group is its first
two characters. -/
def yearRegex : Matcher :=
  mseq mbound (mseq (malt (mstr ['1', '9']) (mstr ['2', '0']))
    (mseq (mtake isDigitC 2 2) mbound))

/-- `re.findall(year_pattern, s)`: with exactly one capture group in the
pattern, Python returns the list of group matches — the `(19|20)` part,
i.e. the first two characters of each full match — not the full 4-digit
matches. -/
def findYearGroups (s : List Char) : List (List Char) :=
  (findAll yearRegex s).map (fun m => m.take 2)

/-- Decimal value of a digit list (`int(...)` on the findall results). -/
def listToNat (l : List Char) : Nat :=
  l.foldl (fun n c => n * 10 + (c.toNat - '0'.toNat)) 0

/-! ### Text utilities (`str` methods used by the source) -/

/-- `str.lower()` (ASCII). -/
def lowerStr (s : String) : String := ⟨s.data.map Char.toLower⟩

/-- Python's substring containment `needle in hay`. -/
def containsSub (needle hay : String) : Bool :=
  (List.range (hay.data.length + 1)).any
    (fun i => needle.data.isPrefixOf (hay.data.drop i))

/-- `re.sub(r'\n+', '\n', text)` worker: the flag records whether the
previous character was a newline (then further newlines are dropped). -/
def collapseNLAux : Bool → List Char → List Char
  | _, [] => []
  | prevNL, c :: r =>
    if c = '\n' then
      if prevNL then collapseNLAux true r else '\n' :: collapseNLAux true r
    else c :: collapseNLAux false r

/-- `re.sub(r'\n+', '\n', text)`: collapse each run of newlines to one. -/
def collapseNL (cs : List Char) : List Char := collapseNLAux false cs

/-- Remove trailing whitespace (structural form of `str.rstrip()`). -/
def dropTrailWS : List Char → List Char
  | [] => []
  | c :: r =>
    match dropTrailWS r with
    | [] => if isSpaceC c then [] else [c]
    | h :: t => c :: h :: t

/-- `str.strip()`: remove leading and trailing whitespace. -/
def stripWS (cs : List Char) : List Char := dropTrailWS (cs.dropWhile isSpaceC)

/-- `str.strip()` on strings. -/
def stripStr (s : String) : String := ⟨stripWS s.data⟩

/-- `clean_text` (source lines 70-72):
`re.sub(r'\n+', '\n', text).strip()` (and `""` for empty input, which the
composition also yields). -/
def clean_text (t : String) : String := ⟨stripWS (collapseNL t.data)⟩

/-- `str.split('\n')` on character lists (keeps empty pieces, and the
split of the empty text is `[[]]`, as in Python). -/
def splitNL : List Char → List (List Char)
  | [] => [[]]
  | c :: r =>
    if c = '\n' then [] :: splitNL r
    else
      match splitNL r with
      | h :: t => (c :: h) :: t
      | [] => [[c]]

/-- `text.split('\n')` producing strings. -/
def linesOf (s : String) : List String := (splitNL s.data).map (fun l => ⟨l⟩)

/-- Number of whitespace-delimited tokens, Python `len(s.split())`. -/
def tokenCount (cs : List Char) : Nat :=
  (cs.foldl
    (fun st c =>
      if isSpaceC c then (false, st.2)
      else if st.1 then (true, st.2) else (true, st.2 + 1))
    ((false, 0) : Bool × Nat)).2

/-- Python `str.count(sub)`: non-overlapping occurrence count, scanning
from the left (fuel-driven; the needles used are non-empty, and `findAll`
style fuel `|hay| + 1` is always sufficient). -/
def countSubAux (n : List Char) : Nat → List Char → Nat
  | 0, _ => 0
  | fuel + 1, h =>
    if n.isPrefixOf h then 1 + countSubAux n fuel (h.drop n.length)
    else
      match h with
      | [] => 0
      | _ :: r => countSubAux n fuel r

/-- Python `hay.count(needle)`. -/
def countSubstr (needle hay : String) : Nat :=
  countSubAux needle.data (hay.data.length + 1) hay.data

/-! ### Keyword tables of `ResumeAnalyzer.__init__` (source lines 32-48) -/

/-- `sections_keywords` (source lines 32-38), in Python dict insertion
order, which is the iteration order of the header scan. -/
def sections_keywords : List (String × List String) :=
  [("education", ["education", "academic", "qualifications", "university", "college"]),
   ("skills", ["skills", "technologies", "technical skills", "competencies", "stack"]),
   ("experience", ["experience", "work history", "employment", "internships", "career", "professional experience"]),
   ("achievements", ["achievements", "certifications", "awards", "honors", "licenses"]),
   ("projects", ["projects", "portfolio"])]

/-- `personality_keywords` (source lines 41-48). -/
def personality_keywords : List (String × List String) :=
  [("Leadership", ["led", "managed", "spearheaded", "oversaw", "directed", "supervised", "guided", "mentored", "chief", "head"]),
   ("Teamwork", ["collaborated", "team", "partnered", "assisted", "supported", "cooperated", "joint", "group", "member"]),
   ("Communication", ["presented", "negotiated", "authored", "wrote", "corresponded", "spoke", "briefed", "explained", "facilitated"]),
   ("Problem Solving", ["solved", "resolved", "debugged", "fixed", "troubleshot", "analyzed", "diagnosed", "improved", "optimized"]),
   ("Creativity", ["designed", "created", "innovated", "architected", "developed", "conceptualized", "drafted", "originated"]),
   ("Adaptability", ["adapted", "adjusted", "flexible", "versatile", "changed", "learned", "migrated", "transitioned"])]

/-! ### `calculate_experience_level` (source lines 74-118) -/

/-- Insert into a sorted list (ascending). -/
def insertSorted (x : Nat) : List Nat → List Nat
  | [] => [x]
  | y :: r => if x ≤ y then x :: y :: r else y :: insertSorted x r

/-- Python `sorted` on naturals. -/
def sortNat (l : List Nat) : List Nat := l.foldr insertSorted []

/-- Source lines 80-81: the year candidates of the experience text.
`re.findall(year_pattern, ...)` returns the capture groups (see
`findYearGroups`), each converted with `int`, filtered to
`1980 <= y <= datetime.now().year` and sorted ascending. -/
def filteredYears (nowYear : Nat) (expText : String) : List Nat :=
  sortNat (((findYearGroups expText.data).map listToNat).filter
    (fun y => 1980 ≤ y && y ≤ nowYear))

/-- Source lines 83-85: `years[-1] - years[0]` on the sorted list if
non-empty, else `0`. -/
def estimatedYearsOf : List Nat → Nat
  | [] => 0
  | y :: rest => rest.getLastD y - y

/-- Source line 89: whether the lowercased full text contains one of
`senior`, `manager`, `lead`, `architect`. -/
def titleBumpOf (textLower : String) : Bool :=
  containsSub "senior" textLower || containsSub "manager" textLower ||
    containsSub "lead" textLower || containsSub "architect" textLower

/-- Source line 98: whether the lowercased full text contains one of the
fresher keywords. -/
def hasFresherKw (textLower : String) : Bool :=
  ["fresher", "graduate", "entry level"].any (fun k => containsSub k textLower)

/-- Source line 118: the detail string
`f"{estimated_years} Years detected ({min(years) if years else '?'} - {max(years) if years else '?'})"`
(the list is sorted, so min is its head and max its last element). -/
def yearsDetail (estYears : Nat) (ys : List Nat) : String :=
  toString estYears ++ " Years detected (" ++
    (match ys with | [] => "?" | y :: _ => toString y) ++ " - " ++
    (match ys with | [] => "?" | y :: r => toString (r.getLastD y)) ++ ")"

/-- Source lines 94-118: the decision cascade on the estimated year span,
the title-bump flag and the fresher-keyword flag (the year list is used
only for the detail string). -/
def experienceCascade (estYears : Nat) (bump fresher : Bool) (ys : List Nat) :
    String × String :=
  if estYears ≤ 1 && fresher then ("Fresher / Entry-Level", "0-1 Years (inferred)")
  else if estYears = 0 && !bump then ("Entry-Level (Uncertain)", "No dates found")
  else
    let level0 := if estYears < 3 then "Junior"
      else if estYears < 7 then "Mid-Level" else "Senior"
    let level1 := if bump && (level0 = "Junior") && decide (1 < estYears)
      then "Junior-Mid" else level0
    let level2 := if bump && (level1 = "Mid-Level") then "Mid-Senior" else level1
    (level2, yearsDetail estYears ys)

/-- `calculate_experience_level` (source lines 74-118). -/
def calculate_experience_level (nowYear : Nat) (text expText : String) :
    String × String :=
  experienceCascade (estimatedYearsOf (filteredYears nowYear expText))
    (titleBumpOf (lowerStr text)) (hasFresherKw (lowerStr text))
    (filteredYears nowYear expText)

/-! ### `analyze_personality` (source lines 120-155) -/

/-- Source lines 144-151: bucket a combined score into a rating label. -/
def rate (score : Nat) : String :=
  if score ≥ 10 then "High"
  else if score ≥ 4 then "Medium"
  else if score > 0 then "Low"
  else "Not Detected"

/-- Source lines 136-140: a trait's combined score — for each keyword, the
count of equal lemma tokens (`Counter(tokens)[k]`) plus the non-overlapping
substring count in the lowercased text (`text.lower().count(k)`). -/
def traitScore (tokens : List String) (textLower : String)
    (keywords : List String) : Nat :=
  keywords.foldl (fun acc k => acc + tokens.count k + countSubstr k textLower) 0

/-- `analyze_personality` (source lines 120-155).  The spaCy pipeline is
the external collaborator `nlp`: `none` models the model having failed to
load (source lines 125-126), `some f` models
`[token.lemma_ for token in self.nlp(text.lower()) if not token.is_stop and not token.is_punct]`
(source lines 128-129). -/
def analyze_personality (nlp : Option (String → List String)) (text : String) :
    List (String × String × Nat) :=
  match nlp with
  | none => personality_keywords.map (fun p => (p.1, "N/A", 0))
  | some f =>
    let tl := lowerStr text
    let tokens := f tl
    personality_keywords.map (fun p =>
      let s := traitScore tokens tl p.2
      (p.1, rate s, s))

/-! ### Section segmentation and `parse` (source lines 157-226) -/

/-- The per-section accumulated content lines (`section_text`). -/
structure Sections where
  education : List String
  skills : List String
  experience : List String
  achievements : List String
  projects : List String
  deriving Repr, DecidableEq

/-- The empty section map (`{k: [] for k in self.sections_keywords}`). -/
def emptySections : Sections := ⟨[], [], [], [], []⟩

/-- Source lines 197-201: the first section (in table iteration order) one
of whose keywords occurs in the stripped lowercased line, provided the
line has fewer than 5 whitespace-delimited tokens; `none` when the line is
not a header. -/
def headerOf (line : String) : Option String :=
  let cl := lowerStr (stripStr line)
  sections_keywords.findSome? (fun p =>
    if p.2.any (fun k => containsSub k cl) && decide (tokenCount cl.data < 5)
    then some p.1 else none)

/-- Append a content line to the section named `tag`. -/
def appendSection (secs : Sections) (tag : String) (line : String) : Sections :=
  if tag = "education" then { secs with education := secs.education ++ [line] }
  else if tag = "skills" then { secs with skills := secs.skills ++ [line] }
  else if tag = "experience" then { secs with experience := secs.experience ++ [line] }
  else if tag = "achievements" then { secs with achievements := secs.achievements ++ [line] }
  else if tag = "projects" then { secs with projects := secs.projects ++ [line] }
  else secs

/-- The segmentation state: active section, accumulated section content,
and the raw experience accumulator `full_experience_text`. -/
structure SegState where
  current : Option String
  secs : Sections
  fullExp : String
  deriving Repr, DecidableEq

/-- One iteration of the segmentation loop (source lines 194-209): a
header line switches the active section and is dropped; otherwise a
non-blank line is appended (stripped) to the active section if any, and —
when that section is `experience` — the raw line plus a space is appended
to `full_experience_text`. -/
def segStep (st : SegState) (line : String) : SegState :=
  match headerOf line with
  | some tag => { st with current := some tag }
  | none =>
    match st.current with
    | none => st
    | some tag =>
      if stripStr line ≠ "" then
        { current := st.current,
          secs := appendSection st.secs tag (stripStr line),
          fullExp := if tag = "experience" then st.fullExp ++ line ++ " "
                     else st.fullExp }
      else st

/-- The whole segmentation pass (source lines 190-209). -/
def segmentLines (ls : List String) : SegState :=
  ls.foldl segStep ⟨none, emptySections, ""⟩

/-- Source lines 183-187: the probable name — the first of the first 5
lines whose stripped form is longer than 2 characters, does not contain
`resume` (case-insensitively) and does not contain `@`. -/
def findName (ls : List String) : String :=
  match (ls.take 5).find? (fun l =>
      let s := stripStr l
      decide (2 < s.length) && !containsSub "resume" (lowerStr s) &&
        !containsSub "@" s) with
  | some l => stripStr l
  | none => "Not Found"

/-- The assembled output record (`data`, source lines 165-174 and
211-224), with the `AI_Analysis` sub-record flattened into the last three
fields. -/
structure ResumeData where
  fullName : String
  email : String
  phone : String
  skills : List String
  education : List String
  experience : List String
  achievements : List String
  expLevel : String
  expDetail : String
  personality : List (String × String × Nat)
  deriving Repr, DecidableEq

/-- The result of `parse`: either the single-key error record
`{"Error": "Could not extract text."}` or the populated data record. -/
inductive ParseResult where
  | error (msg : String)
  | ok (d : ResumeData)
  deriving Repr, DecidableEq

/-- The successful branch of `parse` (source lines 162-226). -/
def parseBody (nlp : Option (String → List String)) (nowYear : Nat)
    (t : String) : ResumeData :=
  let clean := clean_text t
  let ls := linesOf clean
  let seg := segmentLines ls
  let lvlDetail := calculate_experience_level nowYear clean seg.fullExp
  { fullName := findName ls,
    email := (searchStr emailRegex clean).getD "Not Found",
    phone := (searchStr phoneRegex clean).getD "Not Found",
    skills := seg.secs.skills,
    education := seg.secs.education,
    experience := seg.secs.experience,
    achievements := seg.secs.achievements,
    expLevel := lvlDetail.1,
    expDetail := lvlDetail.2,
    personality := analyze_personality nlp clean }

/-- `parse` (source lines 157-226), parameterised over the extraction
result (`extract_text` is the external file collaborator: `none` models it
returning `None`, `some t` a returned text; `if not raw_text` is true
exactly for `None` and the empty string). -/
def parse (nlp : Option (String → List String)) (nowYear : Nat)
    (raw : Option String) : ParseResult :=
  match raw with
  | none => .error "Could not extract text."
  | some t =>
    if t = "" then .error "Could not extract text."
    else .ok (parseBody nlp nowYear t)

/-- Is the parse result the populated record (no `Error` key)? -/
def ParseResult.isOk : ParseResult → Bool
  | .error _ => false
  | .ok _ => true

/-! ## Claims -/

/-- Modelled from the spec: steps 1-2 of the Experience Estimator as the
spec words them — "extract all 4-digit year tokens from the
experience-only text matching the pattern `(19|20)dd`; keep only years
between 1980 and the current calendar year inclusive; sort ascending" —
i.e. using the full 4-digit matches, unlike the capture groups that
`re.findall` actually returns on a grouped pattern. -/
def specExtractYears (nowYear : Nat) (expText : String) : List Nat :=
  sortNat (((findAll yearRegex expText.data).map listToNat).filter
    (fun y => 1980 ≤ y && y ≤ nowYear))

/-- C1: refuted by the code.  `re.findall` on the grouped pattern
`\b(19|20)\d{2}\b` returns the capture groups `"19"`/`"20"`, not the
4-digit matches; on the experience text `"Led team 2015 Managed project
2020 "` the candidate list is `[20, 20]`, the `1980 ≤ y ≤ now` filter
discards everything, and `estimated_years` is `0` — whereas the
extraction described by the spec yields `[2015, 2020]` and a span of
`5`. -/
theorem c1_year_extraction_bug :
    (findYearGroups "Led team 2015 Managed project 2020 ".data).map listToNat
      = [20, 20] ∧
    filteredYears 2026 "Led team 2015 Managed project 2020 " = [] ∧
    estimatedYearsOf
      (filteredYears 2026 "Led team 2015 Managed project 2020 ") = 0 ∧
    specExtractYears 2026 "Led team 2015 Managed project 2020 "
      = [2015, 2020] ∧
    estimatedYearsOf
      (specExtractYears 2026 "Led team 2015 Managed project 2020 ") = 5 := by
  decide

/-- The scenario text of claim C2. -/
def scenarioText : String :=
  "John Doe\njohn@x.com\n555-123-4567\nEXPERIENCE\nLed team 2015\nManaged project 2020"

/-- C2: the actual output of `parse` on the scenario text.  Email, phone,
name and the two experience lines come out as the claim states, but —
because the year extraction returns the capture groups (see
`c1_year_extraction_bug`) — the detected years are `[]`, not
`[2015, 2020]`, and the label is `"Entry-Level (Uncertain)"` with detail
`"No dates found"`, not `"Mid-Level"`. -/
theorem c2_scenario_actual_output :
    parse none 2026 (some scenarioText) =
      .ok { fullName := "John Doe",
            email := "john@x.com",
            phone := "555-123-4567",
            skills := [],
            education := [],
            experience := ["Led team 2015", "Managed project 2020"],
            achievements := [],
            expLevel := "Entry-Level (Uncertain)",
            expDetail := "No dates found",
            personality := [("Leadership", "N/A", 0), ("Teamwork", "N/A", 0),
                            ("Communication", "N/A", 0),
                            ("Problem Solving", "N/A", 0),
                            ("Creativity", "N/A", 0),
                            ("Adaptability", "N/A", 0)] } := by
  decide

/-- The seniority scale named by claim C5. -/
def seniorityRank (label : String) : Nat :=
  if label = "Entry-Level (Uncertain)" then 0
  else if label = "Junior" then 1
  else if label = "Junior-Mid" then 2
  else if label = "Mid-Level" then 3
  else if label = "Mid-Senior" then 4
  else if label = "Senior" then 5
  else 6

/-- C5: for either value of the title bump, with no fresher keyword, the
labels of the decision cascade at estimated spans 0, 2, 5, 8 are
non-decreasing on the claimed seniority scale (the label component of the
cascade does not depend on the year list, which only feeds the detail
string; it is `[]` here). -/
theorem c5_cascade_monotone :
    ∀ b : Bool,
      seniorityRank (experienceCascade 0 b false []).1 ≤
        seniorityRank (experienceCascade 2 b false []).1 ∧
      seniorityRank (experienceCascade 2 b false []).1 ≤
        seniorityRank (experienceCascade 5 b false []).1 ∧
      seniorityRank (experienceCascade 5 b false []).1 ≤
        seniorityRank (experienceCascade 8 b false []).1 := by
  intro b
  cases b <;> exact ⟨by decide, by decide, by decide⟩

/-- C6: the rating bucketing of `analyze_personality` is exactly the
claimed partition, with the boundary points 3, 4, 9, 10 landing as
stated. -/
theorem c6_rating_thresholds :
    (∀ s : Nat,
      (s = 0 → rate s = "Not Detected") ∧
      (0 < s → s < 4 → rate s = "Low") ∧
      (4 ≤ s → s < 10 → rate s = "Medium") ∧
      (10 ≤ s → rate s = "High")) ∧
    rate 3 = "Low" ∧ rate 4 = "Medium" ∧ rate 9 = "Medium" ∧
      rate 10 = "High" := by
  constructor
  · intro s
    refine ⟨fun h0 => ?_, fun h1 h2 => ?_, fun h1 h2 => ?_, fun h => ?_⟩ <;>
      (unfold rate; split_ifs <;> first | rfl | (exfalso; omega))
  · exact ⟨by decide, by decide, by decide, by decide⟩

/-- Witness for `c6_rating_thresholds` at the boundary score 9. -/
theorem c6_rating_thresholds_witness : rate 9 = "Medium" :=
  (c6_rating_thresholds.1 9).2.2.1 (by decide) (by decide)

/-- C10: when the filtered year list is empty (so the estimated span is
0) but a title-bump keyword occurs and no fresher keyword does,
`calculate_experience_level` returns `"Junior"` with detail
`"0 Years detected (? - ?)"`. -/
theorem c10_zero_years_with_bump (nowYear : Nat) (text expText : String)
    (hy : filteredYears nowYear expText = [])
    (hb : titleBumpOf (lowerStr text) = true)
    (hf : hasFresherKw (lowerStr text) = false) :
    calculate_experience_level nowYear text expText =
      ("Junior", "0 Years detected (? - ?)") := by
  unfold calculate_experience_level
  rw [hy, hb, hf]
  decide

/-- Witness for `c10_zero_years_with_bump` on a concrete input. -/
theorem c10_zero_years_with_bump_witness :
    calculate_experience_level 2026 "senior" "" =
      ("Junior", "0 Years detected (? - ?)") :=
  c10_zero_years_with_bump 2026 "senior" "" (by decide) (by decide) (by decide)

/-- C7: `parse` returns exactly the single-key error record when the
extraction collaborator produced no text (`None` or the empty string),
and a populated (error-free) record for every non-empty text. -/
theorem c7_error_exactly_on_no_text (nlp : Option (String → List String))
    (nowYear : Nat) (t : String) :
    parse nlp nowYear none = .error "Could not extract text." ∧
    parse nlp nowYear (some "") = .error "Could not extract text." ∧
    (t ≠ "" → (parse nlp nowYear (some t)).isOk = true) := by
  refine ⟨rfl, rfl, fun ht => ?_⟩
  simp only [parse]
  rw [if_neg ht]
  rfl

/-- Witness for `c7_error_exactly_on_no_text` on a concrete text. -/
theorem c7_error_exactly_on_no_text_witness :
    (parse none 2026 (some "a")).isOk = true :=
  (c7_error_exactly_on_no_text none 2026 "a").2.2 (by decide)

/-- C8: without the spaCy model, `analyze_personality` reports every one
of the six traits as `("N/A", 0)`, and `parse` still populates every
other field exactly as it would with the model available: its output is
the with-model output with only the personality map replaced. -/
theorem c8_degraded_mode (f : String → List String) (nowYear : Nat)
    (t : String) :
    analyze_personality none t =
      [("Leadership", "N/A", 0), ("Teamwork", "N/A", 0),
       ("Communication", "N/A", 0), ("Problem Solving", "N/A", 0),
       ("Creativity", "N/A", 0), ("Adaptability", "N/A", 0)] ∧
    (t ≠ "" → parse none nowYear (some t) =
      .ok { parseBody (some f) nowYear t with
              personality := analyze_personality none t }) := by
  refine ⟨rfl, fun ht => ?_⟩
  simp only [parse]
  rw [if_neg ht]
  rfl

/-- Witness for `c8_degraded_mode` on a concrete text. -/
theorem c8_degraded_mode_witness :
    analyze_personality none "a" =
      [("Leadership", "N/A", 0), ("Teamwork", "N/A", 0),
       ("Communication", "N/A", 0), ("Problem Solving", "N/A", 0),
       ("Creativity", "N/A", 0), ("Adaptability", "N/A", 0)] ∧
    parse none 2026 (some "a") =
      .ok { parseBody (some (fun _ => ([] : List String))) 2026 "a" with
              personality := analyze_personality none "a" } :=
  ⟨(c8_degraded_mode (fun _ => []) 2026 "a").1,
   (c8_degraded_mode (fun _ => []) 2026 "a").2 (by decide)⟩

/-- C4: characterisation of one segmentation step — a header line (first
matching section in table iteration order, fewer than 5 tokens) only
switches the active section and is appended nowhere; a non-header line is
dropped when no section is active or when it is blank; otherwise it is
appended (stripped) exactly to the active section, every other section's
content being left unchanged (the last conjunct pins `appendSection` to
touching the one named field). -/
theorem c4_segmentation_step (st : SegState) (line : String) :
    (∀ tag, headerOf line = some tag →
        segStep st line = { st with current := some tag }) ∧
    (headerOf line = none → st.current = none ∨ stripStr line = "" →
        segStep st line = st) ∧
    (∀ tag, headerOf line = none → st.current = some tag →
        stripStr line ≠ "" →
        segStep st line =
          { current := some tag,
            secs := appendSection st.secs tag (stripStr line),
            fullExp := if tag = "experience" then st.fullExp ++ line ++ " "
                       else st.fullExp }) ∧
    (∀ secs l,
      appendSection secs "education" l
        = { secs with education := secs.education ++ [l] } ∧
      appendSection secs "skills" l
        = { secs with skills := secs.skills ++ [l] } ∧
      appendSection secs "experience" l
        = { secs with experience := secs.experience ++ [l] } ∧
      appendSection secs "achievements" l
        = { secs with achievements := secs.achievements ++ [l] } ∧
      appendSection secs "projects" l
        = { secs with projects := secs.projects ++ [l] }) := by
  refine ⟨fun tag h => ?_, fun h h2 => ?_, fun tag h hc hs => ?_,
    fun secs l => ⟨rfl, rfl, rfl, rfl, rfl⟩⟩
  · unfold segStep
    rw [h]
  · unfold segStep
    rw [h]
    rcases h2 with h2 | h2
    · rw [h2]
    · cases hc : st.current with
      | none => rfl
      | some tag => simp [h2]
  · simp only [segStep, h, hc]
    rw [if_pos hs]

/-- Witness for `c4_segmentation_step`: the line `"EXPERIENCE"` is a
header and switches the state. -/
theorem c4_segmentation_step_witness :
    segStep ⟨none, emptySections, ""⟩ "EXPERIENCE" =
      ⟨some "experience", emptySections, ""⟩ :=
  (c4_segmentation_step ⟨none, emptySections, ""⟩ "EXPERIENCE").1
    "experience" (by decide)

/-- The counterexample input of claim C9: the first five lines disqualify
the name heuristic, a `projects` header follows, and the single projects
content line is an email address. -/
def projText : String := "x\n.\n.\n.\n.\nprojects\nfoo@bar.com"

/-- C9 counterexample: the line `"foo@bar.com"` is accumulated under the
`projects` tag, yet it appears in the `Email` field of the parse result —
content following a projects header is not absent from every field. -/
theorem c9_counterexample :
    (segmentLines (linesOf (clean_text projText))).secs.projects
      = ["foo@bar.com"] ∧
    parse none 2026 (some projText) =
      .ok { fullName := "Not Found",
            email := "foo@bar.com",
            phone := "Not Found",
            skills := [],
            education := [],
            experience := [],
            achievements := [],
            expLevel := "Entry-Level (Uncertain)",
            expDetail := "No dates found",
            personality := [("Leadership", "N/A", 0), ("Teamwork", "N/A", 0),
                            ("Communication", "N/A", 0),
                            ("Problem Solving", "N/A", 0),
                            ("Creativity", "N/A", 0),
                            ("Adaptability", "N/A", 0)] } := by
  exact ⟨by decide, by decide⟩

/-- C9 as amended: the section-list fields of a successful parse are
exactly the education, skills, experience and achievements sections of
the segmentation — the accumulated `projects` content is copied into no
section-list field (it may still surface in the name/email/phone fields,
which scan the whole text, as `c9_counterexample` shows). -/
theorem c9_projects_not_copied (nlp : Option (String → List String))
    (nowYear : Nat) (t : String) (d : ResumeData)
    (h : parse nlp nowYear (some t) = .ok d) :
    d.education = (segmentLines (linesOf (clean_text t))).secs.education ∧
    d.skills = (segmentLines (linesOf (clean_text t))).secs.skills ∧
    d.experience = (segmentLines (linesOf (clean_text t))).secs.experience ∧
    d.achievements
      = (segmentLines (linesOf (clean_text t))).secs.achievements := by
  simp only [parse] at h
  split at h
  · exact absurd h (by simp)
  · rw [show d = parseBody nlp nowYear t from (ParseResult.ok.injEq _ _).mp h.symm]
    exact ⟨rfl, rfl, rfl, rfl⟩

/-- Witness for `c9_projects_not_copied` on a concrete successful parse. -/
theorem c9_projects_not_copied_witness :
    (parseBody none 2026 "SKILLS\npython").education
        = (segmentLines (linesOf (clean_text "SKILLS\npython"))).secs.education ∧
    (parseBody none 2026 "SKILLS\npython").skills
        = (segmentLines (linesOf (clean_text "SKILLS\npython"))).secs.skills ∧
    (parseBody none 2026 "SKILLS\npython").experience
        = (segmentLines (linesOf (clean_text "SKILLS\npython"))).secs.experience ∧
    (parseBody none 2026 "SKILLS\npython").achievements
        = (segmentLines (linesOf (clean_text "SKILLS\npython"))).secs.achievements :=
  c9_projects_not_copied none 2026 "SKILLS\npython"
    (parseBody none 2026 "SKILLS\npython") (by decide)

/-- No two adjacent newline characters. -/
def noDoubleNL : List Char → Bool
  | c1 :: c2 :: r => !(c1 = '\n' && c2 = '\n') && noDoubleNL (c2 :: r)
  | _ => true

theorem noDoubleNL_tail (c : Char) (r : List Char)
    (h : noDoubleNL (c :: r) = true) : noDoubleNL r = true := by
  cases r with
  | nil => rfl
  | cons c2 r2 =>
    simp only [noDoubleNL, Bool.and_eq_true] at h
    exact h.2

theorem collapseNLAux_head_true (cs : List Char) :
    (collapseNLAux true cs).head? ≠ some '\n' := by
  induction cs with
  | nil => simp [collapseNLAux]
  | cons c r ih =>
    by_cases hc : c = '\n'
    · simpa [collapseNLAux, hc] using ih
    · simp [collapseNLAux, hc]

theorem collapseNLAux_noDouble (cs : List Char) :
    ∀ b, noDoubleNL (collapseNLAux b cs) = true := by
  induction cs with
  | nil => intro b; rfl
  | cons c r ih =>
    intro b
    by_cases hc : c = '\n'
    · subst hc
      cases b with
      | true => simpa [collapseNLAux] using ih true
      | false =>
        simp only [collapseNLAux, if_pos rfl, if_neg Bool.false_ne_true]
        cases hX : collapseNLAux true r with
        | nil => rfl
        | cons x xs =>
          have hx : x ≠ '\n' := by
            have h1 := collapseNLAux_head_true r
            rw [hX] at h1
            simpa using h1
          have hnd : noDoubleNL (x :: xs) = true := by
            rw [← hX]; exact ih true
          simp [noDoubleNL, hx, hnd, hX]
    · simp only [collapseNLAux, if_neg hc]
      cases hX : collapseNLAux false r with
      | nil => simp [hX, noDoubleNL]
      | cons x xs =>
        have hnd : noDoubleNL (x :: xs) = true := by
          rw [← hX]; exact ih false
        simp [noDoubleNL, hc, hnd, hX]

theorem noDoubleNL_dropWhile (p : Char → Bool) (cs : List Char)
    (h : noDoubleNL cs = true) : noDoubleNL (cs.dropWhile p) = true := by
  induction cs with
  | nil => exact h
  | cons c r ih =>
    rw [List.dropWhile_cons]
    split
    · exact ih (noDoubleNL_tail _ _ h)
    · exact h

theorem head?_dropWhile_not (p : Char → Bool) (cs : List Char) (c : Char)
    (h : (cs.dropWhile p).head? = some c) : p c = false := by
  induction cs with
  | nil => simp [List.dropWhile] at h
  | cons a r ih =>
    rw [List.dropWhile_cons] at h
    split at h
    · exact ih h
    · next hp =>
      simp only [List.head?_cons, Option.some.injEq] at h
      subst h
      exact Bool.not_eq_true _ ▸ hp

theorem dropTrailWS_head? (cs : List Char) (c : Char)
    (h : (dropTrailWS cs).head? = some c) : cs.head? = some c := by
  cases cs with
  | nil => simp [dropTrailWS] at h
  | cons a r =>
    simp only [dropTrailWS] at h
    cases hX : dropTrailWS r with
    | nil =>
      simp only [hX] at h
      split at h
      · simp at h
      · simpa using h
    | cons x xs =>
      simp only [hX] at h
      simpa using h

theorem dropTrailWS_noDouble (cs : List Char)
    (h : noDoubleNL cs = true) : noDoubleNL (dropTrailWS cs) = true := by
  induction cs with
  | nil => rfl
  | cons a r ih =>
    simp only [dropTrailWS]
    cases hX : dropTrailWS r with
    | nil =>
      simp only [hX]
      split <;> rfl
    | cons x xs =>
      simp only [hX]
      have hnd : noDoubleNL (x :: xs) = true := by
        rw [← hX]; exact ih (noDoubleNL_tail _ _ h)
      cases r with
      | nil => simp [dropTrailWS] at hX
      | cons r0 rt =>
        have hx0 : r0 = x := by
          have h1 := dropTrailWS_head? (r0 :: rt) x (by rw [hX]; rfl)
          simpa using h1
        subst hx0
        simp only [noDoubleNL, Bool.and_eq_true] at h ⊢
        exact ⟨h.1, hnd⟩

theorem dropTrailWS_getLast? (cs : List Char) (c : Char)
    (h : (dropTrailWS cs).getLast? = some c) : isSpaceC c = false := by
  induction cs with
  | nil => simp [dropTrailWS] at h
  | cons a r ih =>
    simp only [dropTrailWS] at h
    cases hX : dropTrailWS r with
    | nil =>
      simp only [hX] at h
      split at h
      · simp at h
      · next hns =>
        simp only [List.getLast?_singleton, Option.some.injEq] at h
        subst h
        exact Bool.not_eq_true _ ▸ hns
    | cons x xs =>
      simp only [hX] at h
      rw [List.getLast?_cons_cons] at h
      exact ih (hX ▸ h)

theorem splitNL_ne_nil (cs : List Char) : splitNL cs ≠ [] := by
  cases cs with
  | nil => simp [splitNL]
  | cons c r =>
    simp only [splitNL]
    split
    · simp
    · cases hX : splitNL r with
      | nil => simp [hX]
      | cons h t => simp [hX]

theorem splitNL_parts (cs : List Char) (hnd : noDoubleNL cs = true)
    (hlast : cs.getLast? ≠ some '\n') :
    [] ∉ (splitNL cs).tail ∧
      (cs.head? ≠ some '\n' → cs ≠ [] → (splitNL cs).head? ≠ some []) := by
  induction cs with
  | nil => exact ⟨by simp [splitNL], fun _ h => absurd rfl h⟩
  | cons c r ih =>
    by_cases hc : c = '\n'
    · subst hc
      have hr : r ≠ [] := by
        intro h0
        subst h0
        exact hlast rfl
      obtain ⟨r0, rt, rfl⟩ : ∃ r0 rt, r = r0 :: rt := by
        cases r with
        | nil => exact absurd rfl hr
        | cons a b => exact ⟨a, b, rfl⟩
      have hlast2 : (r0 :: rt).getLast? ≠ some '\n' := by
        rwa [List.getLast?_cons_cons] at hlast
      have hr0 : r0 ≠ '\n' := by
        intro h0
        subst h0
        simp [noDoubleNL] at hnd
      have hIH := ih (noDoubleNL_tail _ _ hnd) hlast2
      constructor
      · have heq : splitNL ('\n' :: r0 :: rt) = [] :: splitNL (r0 :: rt) := rfl
        rw [heq, List.tail_cons]
        have h1 := hIH.1
        have h2 := hIH.2 (by simp [hr0]) (by simp)
        cases hS : splitNL (r0 :: rt) with
        | nil => exact absurd hS (splitNL_ne_nil _)
        | cons sh st =>
          rw [hS] at h1 h2
          simp only [List.tail_cons] at h1
          simp only [List.head?_cons] at h2
          intro hmem
          rcases List.mem_cons.mp hmem with h3 | h3
          · exact h2 (by rw [← h3])
          · exact h1 h3
      · intro hhead _
        exact absurd rfl hhead
    · cases hS : splitNL r with
      | nil => exact absurd hS (splitNL_ne_nil _)
      | cons sh st =>
        have heq : splitNL (c :: r) = (c :: sh) :: st := by
          simp [splitNL, hc, hS]
        constructor
        · rw [heq, List.tail_cons]
          cases r with
          | nil =>
            have hst : st = [] := by
              simp only [splitNL] at hS
              injection hS with h1 h2
              exact h2.symm
            simp [hst]
          | cons r0 rt =>
            have hlast2 : (r0 :: rt).getLast? ≠ some '\n' := by
              rwa [List.getLast?_cons_cons] at hlast
            have hIH := ih (noDoubleNL_tail _ _ hnd) hlast2
            have h1 := hIH.1
            rw [hS] at h1
            simpa using h1
        · intro _ _
          rw [heq]
          simp

theorem splitNL_no_empty (cs : List Char) (h0 : cs ≠ [])
    (hnd : noDoubleNL cs = true) (hhead : cs.head? ≠ some '\n')
    (hlast : cs.getLast? ≠ some '\n') : [] ∉ splitNL cs := by
  have hp := splitNL_parts cs hnd hlast
  have h2 := hp.2 hhead h0
  cases hS : splitNL cs with
  | nil => exact absurd hS (splitNL_ne_nil _)
  | cons sh st =>
    rw [hS] at h2
    have h1 := hp.1
    rw [hS] at h1
    simp only [List.tail_cons] at h1
    simp only [List.head?_cons] at h2
    intro hmem
    rcases List.mem_cons.mp hmem with h3 | h3
    · exact h2 (by rw [← h3])
    · exact h1 h3

/-- C3 counterexample: on `"a\n\nb"` — two paragraphs separated by one
blank line — `clean_text` yields `"a\nb"`: the blank line is removed, not
preserved as a single blank line, so the normalized line sequence is
`["a", "b"]` and not `["a", "", "b"]`. -/
theorem c3_counterexample :
    clean_text "a\n\nb" = "a\nb" ∧
    linesOf (clean_text "a\n\nb") = ["a", "b"] ∧
    linesOf (clean_text "a\n\nb") ≠ ["a", "", "b"] ∧
    "" ∉ linesOf (clean_text "a\n\nb") := by
  exact ⟨by decide, by decide, by decide, by decide⟩

/-- C3 as amended: `clean_text` collapses each run of consecutive
newlines into a single newline — thereby removing blank lines outright —
and strips leading/trailing whitespace of the whole document; hence
whenever the cleaned text is non-empty, the normalized line sequence
contains no empty line (a blank line between two paragraphs is *not*
preserved). -/
theorem c3_blank_lines_removed (t : String) (h : clean_text t ≠ "") :
    "" ∉ linesOf (clean_text t) := by
  have hne : (clean_text t).data ≠ [] := by
    intro h0
    exact h (String.ext (h0.trans rfl))
  have hnd0 : noDoubleNL (collapseNL t.data) = true :=
    collapseNLAux_noDouble _ false
  have hnd1 : noDoubleNL (clean_text t).data = true :=
    dropTrailWS_noDouble _ (noDoubleNL_dropWhile _ _ hnd0)
  have hhead : (clean_text t).data.head? ≠ some '\n' := by
    intro hh
    have h1 : (dropTrailWS ((collapseNL t.data).dropWhile isSpaceC)).head?
        = some '\n' := hh
    have h2 := dropTrailWS_head? _ _ h1
    have h3 := head?_dropWhile_not isSpaceC _ _ h2
    simp [isSpaceC] at h3
  have hlast : (clean_text t).data.getLast? ≠ some '\n' := by
    intro hh
    have h2 := dropTrailWS_getLast? ((collapseNL t.data).dropWhile isSpaceC)
      '\n' hh
    simp [isSpaceC] at h2
  have hmain := splitNL_no_empty _ hne hnd1 hhead hlast
  intro hmem
  unfold linesOf at hmem
  rcases List.mem_map.mp hmem with ⟨a, ha, hae⟩
  have ha0 : a = [] := by
    have h4 := congrArg String.data hae
    simpa using h4
  exact hmain (ha0 ▸ ha)

/-- Witness for `c3_blank_lines_removed` at the counterexample text. -/
theorem c3_blank_lines_removed_witness :
    "" ∉ linesOf (clean_text "a\n\nb") :=
  c3_blank_lines_removed "a\n\nb" (by decide)
